import Mathlib

/-!
Shallow embedding of `src/lib/workers/repository/process/lookup/filter.ts`
(the `filterVersions` function) together with proofs of its specification
properties.

The external collaborators of the filter (the pluggable versioning-scheme
providers, the generic `semver` fallback, the `pep440` fallback, compiled
regular expressions and the error-message constant) are not part of the
source tree under `src/`; following the specification they are modelled as
opaque total predicates bundled in an `Env` record.  JavaScript string
truthiness is modelled by an emptiness test, JavaScript array combinators by
their `List` counterparts, and the `throw` of the configuration-validation
error by an `Except` result.  String inspection (`startsWith`, `endsWith`,
`slice`) is carried out on the character list of the string so that every
definition evaluates by kernel reduction.
-/

namespace LookupFilter

/-- One release record from the datasource (`Release` in the source): the
candidate's version string and its deprecation flag (an absent flag in the
source behaves as `false` under JavaScript truthiness, so it is modelled as
a plain `Bool` defaulting to `false`). -/
structure Release where
  version : String
  isDeprecated : Bool := false
  deriving DecidableEq

/-- Per-invocation filter configuration (`FilterConfig` in the source).
Optional fields are `Option`s; `versioning` is the scheme id string. -/
structure FilterConfig where
  allowedVersions : Option String := none
  depName : Option String := none
  followTag : Option String := none
  ignoreDeprecated : Option Bool := none
  ignoreUnstable : Option Bool := none
  respectLatest : Option Bool := none
  versioning : String
  deriving DecidableEq

/-- Modelled from the spec: the comparator capability resolved from a scheme
id (`allVersioning.get(config.versioning)` in the source); the provider
implementations are outside `src/`.  Per the spec it exposes
`isGreaterThan`, `isStable`, `isValid`, `matches` and the three part
accessors; `getMajor`/`getMinor`/`getPatch` may return `null`, hence
`Option Int` (JavaScript `===` on two `null`s is `true`, matching `Option`
equality). -/
structure VersioningApi where
  isGreaterThan : String → String → Bool
  isStable : String → Bool
  isValid : String → Bool
  «matches» : String → String → Bool
  getMajor : String → Option Int
  getMinor : String → Option Int
  getPatch : String → Option Int

/-- Modelled from the spec: every external service consulted by
`filterVersions` that lives outside `src/` — the scheme registry
(`allVersioning.get`), compiled regular expressions
(`regEx(pattern).test(s)`, the process-wide cache being semantically
unobservable), the generic `semver` fallback (`validRange` and
`satisfies(coerce(v), range)`, which is total because `Range.test` of a
`null` coercion is `false`), the `pep440` fallback, and the identifier
strings of the `npm` and `poetry` schemes. -/
structure Env where
  get : String → VersioningApi
  regexTest : String → String → Bool
  semverValidRange : String → Bool
  semverSatisfiesCoerce : String → String → Bool
  pep440IsValid : String → Bool
  pep440Matches : String → String → Bool
  npmId : String
  poetryId : String

/-- Modelled from the spec: the fixed category tag of the
configuration-validation error (`CONFIG_VALIDATION` from
`constants/error-messages`, which is outside `src/`). -/
def CONFIG_VALIDATION : String := "config-validation"

/-- The configuration-validation error object thrown by the source: a plain
`Error` carrying the category tag as its message plus the three extra
properties set at the throw site. -/
structure ConfigError where
  message : String
  configFile : String
  validationError : String
  validationMessage : String
  deriving DecidableEq

/-- Every way the embedded function can fail: the thrown
configuration-validation error, or the runtime `TypeError` that a property
access on an `undefined` lookup result would raise. -/
inductive Err where
  | config : ConfigError → Err
  | typeError : Err
  deriving DecidableEq

/-- JavaScript truthiness of a string: `true` exactly when non-empty. -/
def strTruthy (s : String) : Bool := !(s == "")

/-- JavaScript truthiness of an optional string (`undefined` is falsy). -/
def optTruthy : Option String → Bool
  | none => false
  | some s => strTruthy s

/-- Whether `p` is a prefix of `cs`, on character lists (JavaScript
`String.prototype.startsWith`). -/
def listStartsWith : List Char → List Char → Bool
  | [], _ => true
  | _ :: _, [] => false
  | p :: ps, c :: cs => p == c && listStartsWith ps cs

/-- Whether `p` is a suffix of `cs`, on character lists (JavaScript
`String.prototype.endsWith`). -/
def listEndsWith (p cs : List Char) : Bool :=
  listStartsWith p.reverse cs.reverse

/-- JavaScript `s.slice(i, -1)` for `i ≤ s.length`: drop the first `i`
characters and the last one. -/
def sliceToLast (i : Nat) (s : String) : String :=
  String.mk ((s.toList.drop i).dropLast)

/-- Lower-case hexadecimal digit, as emitted by `JSON.stringify` escapes. -/
def hexDigitChar (n : Nat) : Char :=
  if n < 10 then Char.ofNat (48 + n) else Char.ofNat (87 + n)

/-- Escape of one character inside a `JSON.stringify`d string literal. -/
def jsonEscapeChar (c : Char) : List Char :=
  if c = '"' then ['\\', '"']
  else if c = '\\' then ['\\', '\\']
  else if c = '\x08' then ['\\', 'b']
  else if c = '\t' then ['\\', 't']
  else if c = '\n' then ['\\', 'n']
  else if c = '\x0c' then ['\\', 'f']
  else if c = '\r' then ['\\', 'r']
  else if c.toNat < 32 then
    ['\\', 'u', '0', '0', hexDigitChar (c.toNat / 16), hexDigitChar (c.toNat % 16)]
  else [c]

/-- `JSON.stringify` of a string value: the escaped text wrapped in double
quotes. -/
def jsonStringify (s : String) : String :=
  String.mk ('"' :: (s.toList.map jsonEscapeChar).flatten ++ ['"'])

/-- The error object built at the `throw` site of Stage C's final `else`
branch, for offending expression `allowedVersions`. -/
def invalidAllowedVersionsError (allowedVersions : String) : ConfigError where
  message := CONFIG_VALIDATION
  configFile := "config"
  validationError := "Invalid `allowedVersions`"
  validationMessage :=
    "The following allowedVersions does not parse as a valid version or range: " ++
      jsonStringify allowedVersions

/-- JavaScript `Array.prototype.filter` with a callback that may throw:
elements are tested left to right and the first raised error aborts the
whole traversal. -/
def filterE (p : α → Except Err Bool) : List α → Except Err (List α)
  | [] => .ok []
  | x :: xs =>
    match p x with
    | .error e => .error e
    | .ok b =>
      match filterE p xs with
      | .error e => .error e
      | .ok rest => .ok (if b then x :: rest else rest)

/-- The source's local helper `isVersionStable`, a transparent wrapper around
the comparator's `isStable`. -/
def isVersionStable (versioning : VersioningApi) (version : String) : Bool :=
  if !(versioning.isStable version) then false else true

/-- Stage A, the baseline cut: `versions.filter((v) =>
versioning.isGreaterThan(v.version, fromVersion))`. -/
def stageA (versioning : VersioningApi) (fromVersion : String)
    (versions : List Release) : List Release :=
  versions.filter (fun v => versioning.isGreaterThan v.version fromVersion)

/-- Stage B, the deprecation guard: look up `fromVersion`'s record in the
original sequence and, when `ignoreDeprecated` is set, that record exists
and it is not deprecated, drop every surviving candidate whose first
matching record in the original sequence is deprecated.  The inner property
access `versionRelease.isDeprecated` on a failed lookup is the `typeError`
outcome. -/
def stageB (config : FilterConfig) (fromVersion : String)
    (versions filteredVersions : List Release) : Except Err (List Release) :=
  match versions.find? (fun release => release.version == fromVersion) with
  | some fromRelease =>
    if config.ignoreDeprecated == some true && !fromRelease.isDeprecated then
      filterE (fun v =>
        match versions.find? (fun release => release.version == v.version) with
        | some versionRelease => .ok (!versionRelease.isDeprecated)
        | none => .error Err.typeError) filteredVersions
    else .ok filteredVersions
  | none => .ok filteredVersions

/-- Stage C strategy 1 guard: the expression is wrapped in `/…/`
(`allowedVersions.length > 1 && startsWith('/') && endsWith('/')`). -/
def regexInclApplies (allowedVersions : String) : Bool :=
  decide (allowedVersions.length > 1) &&
    listStartsWith ['/'] allowedVersions.toList &&
    listEndsWith ['/'] allowedVersions.toList

/-- Stage C strategy 2 guard: the expression is wrapped in `!/…/`
(`allowedVersions.length > 2 && startsWith('!/') && endsWith('/')`). -/
def regexExclApplies (allowedVersions : String) : Bool :=
  decide (allowedVersions.length > 2) &&
    listStartsWith ['!', '/'] allowedVersions.toList &&
    listEndsWith ['/'] allowedVersions.toList

/-- Stage C strategy 4 guard: the active scheme is not `npm` and the
expression is a valid generic semver range. -/
def semverFallbackApplies (env : Env) (schemeId allowedVersions : String) : Bool :=
  schemeId != env.npmId && env.semverValidRange allowedVersions

/-- Stage C strategy 5 guard: the active scheme is `poetry` and the
expression is a valid pep440 specifier. -/
def pep440FallbackApplies (env : Env) (schemeId allowedVersions : String) : Bool :=
  schemeId == env.poetryId && env.pep440IsValid allowedVersions

/-- Whether any of the five Stage C strategies recognises the expression. -/
def anyStrategyApplies (env : Env) (versioning : VersioningApi)
    (schemeId allowedVersions : String) : Bool :=
  regexInclApplies allowedVersions || regexExclApplies allowedVersions ||
    versioning.isValid allowedVersions ||
    semverFallbackApplies env schemeId allowedVersions ||
    pep440FallbackApplies env schemeId allowedVersions

/-- Stage C, the allowed-set constraint: when `allowedVersions` is truthy,
try the five strategies in source order and apply the first one whose guard
holds; when none holds, throw the configuration-validation error. -/
def stageC (env : Env) (versioning : VersioningApi) (config : FilterConfig)
    (filteredVersions : List Release) : Except Err (List Release) :=
  match config.allowedVersions with
  | none => .ok filteredVersions
  | some allowedVersions =>
    if !(strTruthy allowedVersions) then .ok filteredVersions
    else if regexInclApplies allowedVersions then
      .ok (filteredVersions.filter (fun v =>
        env.regexTest (sliceToLast 1 allowedVersions) v.version))
    else if regexExclApplies allowedVersions then
      .ok (filteredVersions.filter (fun v =>
        !(env.regexTest (sliceToLast 2 allowedVersions) v.version)))
    else if versioning.isValid allowedVersions then
      .ok (filteredVersions.filter (fun v =>
        versioning.matches v.version allowedVersions))
    else if semverFallbackApplies env config.versioning allowedVersions then
      .ok (filteredVersions.filter (fun v =>
        env.semverSatisfiesCoerce v.version allowedVersions))
    else if pep440FallbackApplies env config.versioning allowedVersions then
      .ok (filteredVersions.filter (fun v =>
        env.pep440Matches v.version allowedVersions))
    else
      .error (.config (invalidAllowedVersionsError allowedVersions))

/-- Stage D, the stability and ceiling policy, with the source's early
returns written as a nested conditional: the follow-tag or
`ignoreUnstable === false` bypass; the unstable-reference branch (keep
stable candidates and candidates sharing the reference's
major/minor/patch triple) which returns without a ceiling check; and the
stable-reference branch (keep stable candidates, then apply the
`latestVersion` ceiling unless it is absent, `respectLatest === false`, or
the reference is already past it). -/
def stageD (versioning : VersioningApi) (config : FilterConfig)
    (fromVersion latestVersion : String)
    (filteredVersions : List Release) : List Release :=
  if optTruthy config.followTag || config.ignoreUnstable == some false then
    filteredVersions
  else if !(isVersionStable versioning fromVersion) then
    filteredVersions.filter (fun v =>
      isVersionStable versioning v.version ||
        (versioning.getMajor v.version == versioning.getMajor fromVersion &&
          versioning.getMinor v.version == versioning.getMinor fromVersion &&
          versioning.getPatch v.version == versioning.getPatch fromVersion))
  else
    let stableVersions :=
      filteredVersions.filter (fun v => isVersionStable versioning v.version)
    if !(strTruthy latestVersion) then stableVersions
    else if config.respectLatest == some false then stableVersions
    else if versioning.isGreaterThan fromVersion latestVersion then stableVersions
    else
      stableVersions.filter (fun v =>
        !(versioning.isGreaterThan v.version latestVersion))

/-- Stages A, B and C chained in source order (the part of the pipeline that
does not depend on `latestVersion`). -/
def stagesABC (env : Env) (config : FilterConfig) (fromVersion : String)
    (versions : List Release) : Except Err (List Release) :=
  match stageB config fromVersion versions
      (stageA (env.get config.versioning) fromVersion versions) with
  | .error e => .error e
  | .ok filteredVersions =>
    stageC env (env.get config.versioning) config filteredVersions

/-- The embedded `filterVersions`: the empty-reference early return followed
by the four-stage pipeline. -/
def filterVersions (env : Env) (config : FilterConfig)
    (fromVersion latestVersion : String) (versions : List Release) :
    Except Err (List Release) :=
  if !(strTruthy fromVersion) then .ok []
  else
    match stagesABC env config fromVersion versions with
    | .error e => .error e
    | .ok filteredVersions =>
      .ok (stageD (env.get config.versioning) config fromVersion latestVersion
        filteredVersions)

/-! Concrete sample instances, used to evaluate the theorems below on
explicit inputs.  The sample comparator orders a fixed list of version
strings consistently with semantic versioning, treats a version as stable
when it has no `-` suffix, and reads the numeric `major.minor.patch` parts
off the string. -/

/-- Rank of a version string in the sample ordering (unknown strings rank
lowest). -/
def demoRank (v : String) : Nat :=
  if v = "1.0.0" then 1
  else if v = "1.1.0" then 2
  else if v = "1.2.0-beta.1" then 3
  else if v = "1.2.0-beta.2" then 4
  else if v = "1.2.0" then 5
  else if v = "1.3.0-beta.1" then 6
  else if v = "2.0.0" then 7
  else if v = "2.1.0-rc.1" then 8
  else if v = "3.0.0" then 9
  else 0

/-- Split a character list at every occurrence of the separator. -/
def splitChar (sep : Char) : List Char → List (List Char)
  | [] => [[]]
  | x :: xs =>
    let rest := splitChar sep xs
    if x == sep then [] :: rest
    else
      match rest with
      | [] => [[x]]
      | r :: rs => (x :: r) :: rs

/-- Digit accumulator for `charsToNat`. -/
def charsToNatAux : List Char → Nat → Option Nat
  | [], acc => some acc
  | c :: cs, acc =>
    if c.isDigit then charsToNatAux cs (acc * 10 + (c.toNat - 48)) else none

/-- Parse a non-empty all-digit character list as a number. -/
def charsToNat : List Char → Option Nat
  | [] => none
  | cs => charsToNatAux cs 0

/-- The `i`-th dot-separated numeric part of a version string, ignoring any
`-` suffix. -/
def demoPart (i : Nat) (v : String) : Option Int :=
  match (splitChar '.' (v.toList.takeWhile (fun c => c != '-')))[i]? with
  | some cs => (charsToNat cs).map (fun n => (n : Int))
  | none => none

/-- Sample comparator used to instantiate the theorems on concrete inputs. -/
def demoVersioning : VersioningApi where
  isGreaterThan a b := decide (demoRank b < demoRank a)
  isStable v := !(v.toList.contains '-')
  isValid _ := false
  «matches» _ _ := false
  getMajor v := demoPart 0 v
  getMinor v := demoPart 1 v
  getPatch v := demoPart 2 v

/-- Sample comparator that additionally accepts every expression as a valid
native range (for exercising strategy precedence). -/
def permissiveApi : VersioningApi :=
  { demoVersioning with isValid := fun _ => true, «matches» := fun _ _ => true }

/-- Sample environment: the registry returns the sample comparator for every
scheme id, the regex engine tests for a prefix, and both fallback
validators reject everything. -/
def demoEnv : Env where
  get _ := demoVersioning
  regexTest pat v := listStartsWith pat.toList v.toList
  semverValidRange _ := false
  semverSatisfiesCoerce _ _ := false
  pep440IsValid _ := false
  pep440Matches _ _ := false
  npmId := "npm"
  poetryId := "poetry"

/-- Sample configuration with every optional field absent. -/
def demoConfig : FilterConfig := { versioning := "semver" }

/-- Sample configuration with the deprecation guard enabled. -/
def cfgDeprecated : FilterConfig :=
  { versioning := "semver", ignoreDeprecated := some true }

/-- Sample configuration whose `allowedVersions` matches no strategy in the
sample environment. -/
def cfgBadAllowed : FilterConfig :=
  { versioning := "semver", allowedVersions := some "not-a-range!!" }

/-- Sample configuration with a regex-include `allowedVersions`. -/
def cfgRegexIncl : FilterConfig :=
  { versioning := "semver", allowedVersions := some "/1/" }

/-- Sample configuration that follows a dist tag. -/
def cfgFollowTag : FilterConfig :=
  { versioning := "semver", followTag := some "next" }

/-- Candidate sequence with a duplicated version string whose two records
carry different deprecation flags. -/
def counterVersions : List Release :=
  [⟨"1.0.0", false⟩, ⟨"2.0.0", false⟩, ⟨"2.0.0", true⟩]

deriving instance DecidableEq for Except

/-! Helper lemmas about the individual stages. -/

/-- A successful `filterE` run yields a subsequence of its input. -/
theorem filterE_ok_sublist {α : Type} {p : α → Except Err Bool} {l out : List α}
    (h : filterE p l = .ok out) : out.Sublist l := by
  induction l generalizing out with
  | nil =>
    rw [filterE] at h
    cases h
    exact List.Sublist.refl _
  | cons x xs ih =>
    rw [filterE] at h
    cases hp : p x with
    | error e => rw [hp] at h; cases h
    | ok b =>
      rw [hp] at h
      cases hr : filterE p xs with
      | error e => rw [hr] at h; cases h
      | ok rest =>
        rw [hr] at h
        cases h
        cases b with
        | false => simpa using (ih hr).cons x
        | true => simpa using (ih hr).cons₂ x

/-- When every callback evaluation succeeds, so does the whole `filterE`
run. -/
theorem filterE_ok_of_forall {α : Type} {p : α → Except Err Bool} {l : List α}
    (h : ∀ x ∈ l, ∃ b, p x = .ok b) : ∃ out, filterE p l = .ok out := by
  induction l with
  | nil => exact ⟨[], rfl⟩
  | cons x xs ih =>
    obtain ⟨b, hb⟩ := h x (by simp)
    obtain ⟨out, hout⟩ := ih (fun y hy => h y (by simp [hy]))
    exact ⟨if b then x :: out else out, by rw [filterE, hb, hout]⟩

/-- Membership in a successful `filterE` run is governed by the callback's
Boolean verdict. -/
theorem filterE_mem {α : Type} {p : α → Except Err Bool} {l out : List α}
    (h : filterE p l = .ok out) {x : α} (hx : x ∈ l) :
    ∃ b, p x = .ok b ∧ (x ∈ out ↔ b = true) := by
  induction l generalizing out with
  | nil => cases hx
  | cons y ys ih =>
    rw [filterE] at h
    cases hp : p y with
    | error e => rw [hp] at h; cases h
    | ok b' =>
      rw [hp] at h
      cases hr : filterE p ys with
      | error e => rw [hr] at h; cases h
      | ok rest =>
        rw [hr] at h
        cases h
        by_cases hxy : x = y
        · subst hxy
          refine ⟨b', hp, ?_⟩
          cases b' with
          | true => simp
          | false =>
            simp only [Bool.false_eq_true, if_false, iff_false]
            intro hmem
            by_cases hxs : x ∈ ys
            · obtain ⟨b2, hp2, hiff⟩ := ih hr hxs
              rw [hp] at hp2
              cases hp2
              simp at hiff
              exact hiff hmem
            · exact hxs ((filterE_ok_sublist hr).subset hmem)
        · have hxs : x ∈ ys := by
            cases hx with
            | head => exact absurd rfl hxy
            | tail _ htl => exact htl
          obtain ⟨b2, hp2, hiff⟩ := ih hr hxs
          refine ⟨b2, hp2, ?_⟩
          cases b' with
          | true =>
            simp only [if_true, List.mem_cons, hxy, false_or]
            exact hiff
          | false => simpa using hiff

/-- Stage A membership: exactly the original candidates the comparator puts
strictly above the reference version. -/
theorem mem_stageA {versioning : VersioningApi} {fromVersion : String}
    {versions : List Release} {v : Release} :
    v ∈ stageA versioning fromVersion versions ↔
      v ∈ versions ∧ versioning.isGreaterThan v.version fromVersion = true := by
  simp [stageA, List.mem_filter]

/-- Stage A yields a subsequence of the input. -/
theorem stageA_sublist (versioning : VersioningApi) (fromVersion : String)
    (versions : List Release) :
    (stageA versioning fromVersion versions).Sublist versions :=
  List.filter_sublist _

/-- A successful Stage B yields a subsequence of its input. -/
theorem stageB_ok_sublist {config : FilterConfig} {fromVersion : String}
    {versions filteredVersions out : List Release}
    (h : stageB config fromVersion versions filteredVersions = .ok out) :
    out.Sublist filteredVersions := by
  rw [stageB] at h
  split at h
  · split at h
    · exact filterE_ok_sublist h
    · cases h
      exact List.Sublist.refl _
  · cases h
    exact List.Sublist.refl _

/-- Stage B succeeds whenever every surviving candidate occurs in the
original sequence (its lookup then finds a record). -/
theorem stageB_ok_of_subset (config : FilterConfig) (fromVersion : String)
    {versions filteredVersions : List Release}
    (hsub : ∀ v ∈ filteredVersions, v ∈ versions) :
    ∃ out, stageB config fromVersion versions filteredVersions = .ok out := by
  rw [stageB]
  split
  · split
    · apply filterE_ok_of_forall
      intro v hv
      cases hfind : versions.find? (fun release => release.version == v.version) with
      | none =>
        have := List.find?_eq_none.mp hfind v (hsub v hv)
        simp at this
      | some r => exact ⟨!r.isDeprecated, rfl⟩
    · exact ⟨filteredVersions, rfl⟩
  · exact ⟨filteredVersions, rfl⟩

/-- A successful Stage C yields a subsequence of its input. -/
theorem stageC_ok_sublist {env : Env} {versioning : VersioningApi}
    {config : FilterConfig} {filteredVersions out : List Release}
    (h : stageC env versioning config filteredVersions = .ok out) :
    out.Sublist filteredVersions := by
  rw [stageC] at h
  split at h
  · cases h; exact List.Sublist.refl _
  · split at h
    · cases h; exact List.Sublist.refl _
    · split at h
      · cases h; exact List.filter_sublist _
      · split at h
        · cases h; exact List.filter_sublist _
        · split at h
          · cases h; exact List.filter_sublist _
          · split at h
            · cases h; exact List.filter_sublist _
            · split at h
              · cases h; exact List.filter_sublist _
              · cases h

/-- Stage C never raises the runtime `typeError`. -/
theorem stageC_no_typeError {env : Env} {versioning : VersioningApi}
    {config : FilterConfig} {filteredVersions : List Release} :
    stageC env versioning config filteredVersions ≠ .error Err.typeError := by
  intro h
  rw [stageC] at h
  split at h
  · cases h
  · split at h
    · cases h
    · split at h
      · cases h
      · split at h
        · cases h
        · split at h
          · cases h
          · split at h
            · cases h
            · split at h
              · cases h
              · injection h with h'
                cases h'

/-- Stage D yields a subsequence of its input. -/
theorem stageD_sublist (versioning : VersioningApi) (config : FilterConfig)
    (fromVersion latestVersion : String) (filteredVersions : List Release) :
    (stageD versioning config fromVersion latestVersion
      filteredVersions).Sublist filteredVersions := by
  rw [stageD]
  split
  · exact List.Sublist.refl _
  · split
    · exact List.filter_sublist _
    · split
      · exact List.filter_sublist _
      · split
        · exact List.filter_sublist _
        · split
          · exact List.filter_sublist _
          · exact (List.filter_sublist _).trans (List.filter_sublist _)

/-- Stages A–B–C: Stage B always succeeds on Stage A's output, so the
combined pipeline is the Stage C run on that output. -/
theorem stagesABC_eq_stageC (env : Env) (config : FilterConfig)
    (fromVersion : String) (versions : List Release) :
    ∃ fv2, stageB config fromVersion versions
        (stageA (env.get config.versioning) fromVersion versions) = .ok fv2 ∧
      stagesABC env config fromVersion versions =
        stageC env (env.get config.versioning) config fv2 := by
  obtain ⟨fv2, hB⟩ := stageB_ok_of_subset config fromVersion
    (fun v hv => (mem_stageA.mp hv).1)
  exact ⟨fv2, hB, by rw [stagesABC, hB]⟩

/-- A successful A–B–C pipeline yields a subsequence of the original
candidates. -/
theorem stagesABC_ok_sublist {env : Env} {config : FilterConfig}
    {fromVersion : String} {versions out : List Release}
    (h : stagesABC env config fromVersion versions = .ok out) :
    out.Sublist versions := by
  rw [stagesABC] at h
  cases hB : stageB config fromVersion versions
      (stageA (env.get config.versioning) fromVersion versions) with
  | error e => rw [hB] at h; cases h
  | ok fv2 =>
    rw [hB] at h
    exact ((stageC_ok_sublist h).trans (stageB_ok_sublist hB)).trans
      (stageA_sublist _ _ _)

/-- Every element of a successful A–B–C pipeline survived Stage A. -/
theorem stagesABC_mem_stageA {env : Env} {config : FilterConfig}
    {fromVersion : String} {versions out : List Release}
    (h : stagesABC env config fromVersion versions = .ok out) {v : Release}
    (hv : v ∈ out) :
    v ∈ stageA (env.get config.versioning) fromVersion versions := by
  rw [stagesABC] at h
  cases hB : stageB config fromVersion versions
      (stageA (env.get config.versioning) fromVersion versions) with
  | error e => rw [hB] at h; cases h
  | ok fv2 =>
    rw [hB] at h
    exact (stageB_ok_sublist hB).subset ((stageC_ok_sublist h).subset hv)

/-- The A–B–C pipeline never raises the runtime `typeError`. -/
theorem stagesABC_no_typeError (env : Env) (config : FilterConfig)
    (fromVersion : String) (versions : List Release) :
    stagesABC env config fromVersion versions ≠ .error Err.typeError := by
  obtain ⟨fv2, hB, heq⟩ := stagesABC_eq_stageC env config fromVersion versions
  rw [heq]
  exact stageC_no_typeError

/-- With a truthy reference version, `filterVersions` is the four-stage
pipeline. -/
theorem filterVersions_of_truthy (env : Env) (config : FilterConfig)
    (fromVersion latestVersion : String) (versions : List Release)
    (hfrom : strTruthy fromVersion = true) :
    filterVersions env config fromVersion latestVersion versions =
      match stagesABC env config fromVersion versions with
      | .error e => .error e
      | .ok filteredVersions =>
        .ok (stageD (env.get config.versioning) config fromVersion latestVersion
          filteredVersions) := by
  rw [filterVersions, hfrom]
  simp

/-- When some Stage C strategy recognises the expression, Stage C returns
successfully. -/
theorem stageC_ok_of_strategy {env : Env} {versioning : VersioningApi}
    {config : FilterConfig} {filteredVersions : List Release} {av : String}
    (hav : config.allowedVersions = some av)
    (hsome : anyStrategyApplies env versioning config.versioning av = true) :
    ∃ out, stageC env versioning config filteredVersions = .ok out := by
  simp only [stageC, hav]
  split
  · exact ⟨_, rfl⟩
  · split
    · exact ⟨_, rfl⟩
    · split
      · exact ⟨_, rfl⟩
      · split
        · exact ⟨_, rfl⟩
        · split
          · exact ⟨_, rfl⟩
          · split
            · exact ⟨_, rfl⟩
            · rename_i h0 h1 h2 h3 h4 h5
              simp only [Bool.not_eq_true] at h1 h2 h3 h4 h5
              rw [anyStrategyApplies, h1, h2, h3, h4, h5] at hsome
              simp at hsome

/-- When no Stage C strategy recognises a truthy expression, Stage C throws
the configuration-validation error built from that expression. -/
theorem stageC_error_of_no_strategy {env : Env} {versioning : VersioningApi}
    {config : FilterConfig} {filteredVersions : List Release} {av : String}
    (hav : config.allowedVersions = some av) (havt : strTruthy av = true)
    (hnone : anyStrategyApplies env versioning config.versioning av = false) :
    stageC env versioning config filteredVersions =
      .error (.config (invalidAllowedVersionsError av)) := by
  rw [anyStrategyApplies] at hnone
  simp only [Bool.or_eq_false_iff] at hnone
  obtain ⟨⟨⟨⟨h1, h2⟩, h3⟩, h4⟩, h5⟩ := hnone
  simp only [stageC, hav]
  simp [havt, h1, h2, h3, h4, h5]

/-! The claims. -/

/-- C1: for every policy, reference version, latest version and candidate
sequence, a successful `filterVersions` run returns a subsequence
(`List.Sublist`) of the input candidates: every output element is one of
the input records — same version string, same deprecation flag — no new
versions are synthesized, and the input's relative order is preserved. -/
theorem filterVersions_sublist (env : Env) (config : FilterConfig)
    (fromVersion latestVersion : String) (versions out : List Release)
    (hok : filterVersions env config fromVersion latestVersion versions = .ok out) :
    out.Sublist versions := by
  rw [filterVersions] at hok
  split at hok
  · cases hok
    exact List.nil_sublist _
  · split at hok
    · cases hok
    · rename_i fv3 hABC
      cases hok
      exact (stageD_sublist _ _ _ _ _).trans (stagesABC_ok_sublist hABC)

/-- Witness for C1 at a concrete input. -/
theorem filterVersions_sublist_witness :
    List.Sublist [(⟨"2.0.0", false⟩ : Release)]
      [⟨"1.0.0", false⟩, ⟨"2.0.0", false⟩] :=
  filterVersions_sublist demoEnv demoConfig "1.0.0" "" _ _ (by decide)

/-- C2: with a truthy reference version, every element of a successful
`filterVersions` output is strictly greater than the reference version
under the active comparator (`isGreaterThan` holds, so in particular no
output version is equal to the reference under it). -/
theorem filterVersions_above_reference (env : Env) (config : FilterConfig)
    (fromVersion latestVersion : String) (versions out : List Release)
    (hfrom : strTruthy fromVersion = true)
    (hok : filterVersions env config fromVersion latestVersion versions = .ok out)
    (v : Release) (hv : v ∈ out) :
    (env.get config.versioning).isGreaterThan v.version fromVersion = true := by
  rw [filterVersions_of_truthy env config fromVersion latestVersion versions hfrom]
    at hok
  split at hok
  · cases hok
  · rename_i fv3 hABC
    cases hok
    exact (mem_stageA.mp (stagesABC_mem_stageA hABC
      ((stageD_sublist _ _ _ _ _).subset hv))).2

/-- Witness for C2 at a concrete input. -/
theorem filterVersions_above_reference_witness :
    demoVersioning.isGreaterThan "2.0.0" "1.0.0" = true :=
  filterVersions_above_reference demoEnv demoConfig "1.0.0" ""
    [⟨"1.0.0", false⟩, ⟨"2.0.0", false⟩] [⟨"2.0.0", false⟩] (by decide) (by decide)
    ⟨"2.0.0", false⟩ (by decide)

/-- C3: a falsy (absent or empty) reference version makes `filterVersions`
return the empty sequence immediately: the result is `.ok []` for every
policy, latest version, candidate sequence and environment — no error is
raised and, the result being independent of every stage predicate, none of
them can influence it. -/
theorem filterVersions_empty_reference (env : Env) (config : FilterConfig)
    (fromVersion latestVersion : String) (versions : List Release)
    (hfrom : strTruthy fromVersion = false) :
    filterVersions env config fromVersion latestVersion versions = .ok [] := by
  rw [filterVersions, hfrom]
  simp

/-- Witness for C3 at a concrete input. -/
theorem filterVersions_empty_reference_witness :
    filterVersions demoEnv demoConfig "" "2.0.0" [⟨"1.0.0", false⟩] = .ok [] :=
  filterVersions_empty_reference demoEnv demoConfig "" "2.0.0" _ (by decide)

/-- C4: with a truthy reference version and a truthy `allowedVersions`
expression, `filterVersions` fails exactly when none of the five Stage C
strategies recognises the expression, and the failure is the
configuration-validation error: category tag `CONFIG_VALIDATION`,
`validationError` naming the `allowedVersions` field, and
`validationMessage` embedding the offending expression quoted by
`jsonStringify`. -/
theorem filterVersions_invalid_allowed (env : Env) (config : FilterConfig)
    (fromVersion latestVersion : String) (versions : List Release) (av : String)
    (hfrom : strTruthy fromVersion = true)
    (hav : config.allowedVersions = some av)
    (havt : strTruthy av = true) :
    ((∃ e, filterVersions env config fromVersion latestVersion versions =
        .error e) ↔
      anyStrategyApplies env (env.get config.versioning) config.versioning av =
        false) ∧
    (anyStrategyApplies env (env.get config.versioning) config.versioning av =
        false →
      filterVersions env config fromVersion latestVersion versions =
        .error (.config
          { message := CONFIG_VALIDATION
            configFile := "config"
            validationError := "Invalid `allowedVersions`"
            validationMessage :=
              "The following allowedVersions does not parse as a valid version or range: " ++
                jsonStringify av })) := by
  obtain ⟨fv2, hB, hABC⟩ := stagesABC_eq_stageC env config fromVersion versions
  have hmain := filterVersions_of_truthy env config fromVersion latestVersion
    versions hfrom
  rw [hABC] at hmain
  have herr : anyStrategyApplies env (env.get config.versioning)
      config.versioning av = false →
      filterVersions env config fromVersion latestVersion versions =
        .error (.config (invalidAllowedVersionsError av)) := by
    intro hnone
    rw [hmain, stageC_error_of_no_strategy hav havt hnone]
  refine ⟨⟨?_, fun hnone => ⟨_, herr hnone⟩⟩, fun hnone => herr hnone⟩
  rintro ⟨e, he⟩
  cases hall : anyStrategyApplies env (env.get config.versioning)
      config.versioning av with
  | false => rfl
  | true =>
    obtain ⟨o, hC⟩ := stageC_ok_of_strategy hav hall
    rw [hmain] at he
    split at he
    · rename_i e' heq
      rw [hC] at heq
      cases heq
    · cases he

/-- Witness for C4 at a concrete input. -/
theorem filterVersions_invalid_allowed_witness :
    filterVersions demoEnv cfgBadAllowed "1.0.0" ""
        [⟨"1.0.0", false⟩, ⟨"2.0.0", false⟩] =
      .error (.config
        { message := CONFIG_VALIDATION
          configFile := "config"
          validationError := "Invalid `allowedVersions`"
          validationMessage :=
            "The following allowedVersions does not parse as a valid version or range: " ++
              jsonStringify "not-a-range!!" }) :=
  (filterVersions_invalid_allowed demoEnv cfgBadAllowed "1.0.0" "" _
    "not-a-range!!" (by decide) rfl (by decide)).2 (by decide)

/-- C5: Stage C strategy precedence — for every truthy expression, the
first applicable strategy in the fixed order regex-include, regex-exclude,
native scheme range, generic semver fallback, pep440-for-poetry fallback
is the one applied, and no later strategy is tried: under each guard
configuration Stage C equals exactly that strategy's filter, whose form is
independent of every later strategy's predicate and matcher.  In
particular (case 1, for an arbitrary comparator, hence also one whose
`isValid` accepts the expression), a `/…/`-wrapped expression is
interpreted as a regex, never as a native scheme range; and when no guard
holds, Stage C throws instead (claim C4). -/
theorem stageC_strategy_order (env : Env) (versioning : VersioningApi)
    (config : FilterConfig) (av : String) (filteredVersions : List Release)
    (hav : config.allowedVersions = some av)
    (havt : strTruthy av = true) :
    (regexInclApplies av = true →
      stageC env versioning config filteredVersions =
        .ok (filteredVersions.filter (fun v =>
          env.regexTest (sliceToLast 1 av) v.version))) ∧
    (regexInclApplies av = false → regexExclApplies av = true →
      stageC env versioning config filteredVersions =
        .ok (filteredVersions.filter (fun v =>
          !(env.regexTest (sliceToLast 2 av) v.version)))) ∧
    (regexInclApplies av = false → regexExclApplies av = false →
      versioning.isValid av = true →
      stageC env versioning config filteredVersions =
        .ok (filteredVersions.filter (fun v =>
          versioning.matches v.version av))) ∧
    (regexInclApplies av = false → regexExclApplies av = false →
      versioning.isValid av = false →
      semverFallbackApplies env config.versioning av = true →
      stageC env versioning config filteredVersions =
        .ok (filteredVersions.filter (fun v =>
          env.semverSatisfiesCoerce v.version av))) ∧
    (regexInclApplies av = false → regexExclApplies av = false →
      versioning.isValid av = false →
      semverFallbackApplies env config.versioning av = false →
      pep440FallbackApplies env config.versioning av = true →
      stageC env versioning config filteredVersions =
        .ok (filteredVersions.filter (fun v =>
          env.pep440Matches v.version av))) := by
  refine ⟨fun h1 => ?_, fun h1 h2 => ?_, fun h1 h2 h3 => ?_,
    fun h1 h2 h3 h4 => ?_, fun h1 h2 h3 h4 h5 => ?_⟩
  all_goals simp only [stageC, hav]
  · simp [havt, h1]
  · simp [havt, h1, h2]
  · simp [havt, h1, h2, h3]
  · simp [havt, h1, h2, h3, h4]
  · simp [havt, h1, h2, h3, h4, h5]

/-- Witness for C5 at a concrete input: `/1/` is simultaneously regex-shaped
and (for the permissive comparator) a valid native range, and the regex
interpretation wins. -/
theorem stageC_strategy_order_witness :
    stageC demoEnv permissiveApi cfgRegexIncl
        [⟨"1.1.0", false⟩, ⟨"2.0.0", false⟩] =
      .ok [⟨"1.1.0", false⟩] :=
  (stageC_strategy_order demoEnv permissiveApi cfgRegexIncl "/1/"
    [⟨"1.1.0", false⟩, ⟨"2.0.0", false⟩] rfl (by decide)).1 (by decide)

/-- Under no bypass and a stable reference, Stage D's result is a
subsequence of the stability-filtered candidates. -/
theorem stageD_stable_sublist (versioning : VersioningApi) (config : FilterConfig)
    (fromVersion latestVersion : String) (filteredVersions : List Release)
    (hbypass : (optTruthy config.followTag ||
      config.ignoreUnstable == some false) = false)
    (hstable : isVersionStable versioning fromVersion = true) :
    (stageD versioning config fromVersion latestVersion filteredVersions).Sublist
      (filteredVersions.filter (fun v => isVersionStable versioning v.version)) := by
  rw [stageD, hbypass, hstable]
  simp only [Bool.not_true, Bool.false_eq_true, if_false]
  split
  · exact List.Sublist.refl _
  · split
    · exact List.Sublist.refl _
    · split
      · exact List.Sublist.refl _
      · exact List.filter_sublist _

/-- C6: Stage D's stability sub-stage, when not bypassed.  With an unstable
reference, Stage D is exactly the keep-if-stable-or-same-(major, minor,
patch)-triple filter, for every `latestVersion` — the branch returns
without ever applying the latest-version ceiling.  With a stable
reference, every Stage D survivor is stable — all non-stable candidates
are removed before the ceiling sub-stage. -/
theorem stageD_stability_cut (versioning : VersioningApi) (config : FilterConfig)
    (fromVersion latestVersion : String) (filteredVersions : List Release)
    (hbypass : (optTruthy config.followTag ||
      config.ignoreUnstable == some false) = false) :
    (isVersionStable versioning fromVersion = false →
      stageD versioning config fromVersion latestVersion filteredVersions =
        filteredVersions.filter (fun v =>
          isVersionStable versioning v.version ||
            (versioning.getMajor v.version == versioning.getMajor fromVersion &&
              versioning.getMinor v.version == versioning.getMinor fromVersion &&
              versioning.getPatch v.version == versioning.getPatch fromVersion))) ∧
    (isVersionStable versioning fromVersion = true →
      ∀ v ∈ stageD versioning config fromVersion latestVersion filteredVersions,
        isVersionStable versioning v.version = true) := by
  constructor
  · intro hunstable
    rw [stageD, hbypass, hunstable]
    simp
  · intro hstable v hv
    have hmem := (stageD_stable_sublist versioning config fromVersion
      latestVersion filteredVersions hbypass hstable).subset hv
    exact (List.mem_filter.mp hmem).2

/-- Witness for C6 at a concrete input (the spec's unstable-reference
carve-out scenario). -/
theorem stageD_stability_cut_witness :
    stageD demoVersioning demoConfig "1.2.0-beta.1" "2.0.0"
        [⟨"1.2.0-beta.2", false⟩, ⟨"1.2.0", false⟩, ⟨"1.3.0-beta.1", false⟩] =
      [⟨"1.2.0-beta.2", false⟩, ⟨"1.2.0", false⟩] :=
  (stageD_stability_cut demoVersioning demoConfig "1.2.0-beta.1" "2.0.0"
    [⟨"1.2.0-beta.2", false⟩, ⟨"1.2.0", false⟩, ⟨"1.3.0-beta.1", false⟩]
    (by decide)).1 (by decide)

/-- C7: the ceiling sub-stage (no bypass, stable reference, truthy
`latestVersion`, `respectLatest` not explicitly `false`).  If the
reference is already greater than `latestVersion`, Stage D is the plain
stability filter — the ceiling removes nothing even when candidates exceed
`latestVersion`.  Otherwise a stability survivor is kept iff it is not
strictly greater than `latestVersion`; candidates equal to `latestVersion`
are retained. -/
theorem stageD_ceiling (versioning : VersioningApi) (config : FilterConfig)
    (fromVersion latestVersion : String) (filteredVersions : List Release)
    (hbypass : (optTruthy config.followTag ||
      config.ignoreUnstable == some false) = false)
    (hstable : isVersionStable versioning fromVersion = true)
    (hlatest : strTruthy latestVersion = true)
    (hrespect : (config.respectLatest == some false) = false) :
    (versioning.isGreaterThan fromVersion latestVersion = true →
      stageD versioning config fromVersion latestVersion filteredVersions =
        filteredVersions.filter (fun v => isVersionStable versioning v.version)) ∧
    (versioning.isGreaterThan fromVersion latestVersion = false →
      ∀ v ∈ filteredVersions.filter (fun v => isVersionStable versioning v.version),
        (v ∈ stageD versioning config fromVersion latestVersion filteredVersions ↔
          versioning.isGreaterThan v.version latestVersion = false)) := by
  constructor
  · intro hahead
    rw [stageD, hbypass, hstable, hlatest, hrespect, hahead]
    simp
  · intro hnot v hv
    obtain ⟨hvf, hvs⟩ := List.mem_filter.mp hv
    rw [stageD, hbypass, hstable, hlatest, hrespect, hnot]
    simp [List.mem_filter, hvf, hvs]

/-- Witness for C7 at a concrete input: the reference `3.0.0` is ahead of
latest `2.0.0`, and `3.0.0` survives even though it exceeds the latest. -/
theorem stageD_ceiling_witness :
    stageD demoVersioning demoConfig "3.0.0" "2.0.0"
        [⟨"2.0.0", false⟩, ⟨"2.1.0-rc.1", false⟩, ⟨"3.0.0", false⟩] =
      [⟨"2.0.0", false⟩, ⟨"3.0.0", false⟩] :=
  (stageD_ceiling demoVersioning demoConfig "3.0.0" "2.0.0"
    [⟨"2.0.0", false⟩, ⟨"2.1.0-rc.1", false⟩, ⟨"3.0.0", false⟩]
    (by decide) (by decide) (by decide) (by decide)).1 (by decide)

/-- C8: with a truthy reference version, if `followTag` is truthy or
`ignoreUnstable` is explicitly `false`, `filterVersions` returns the Stage
A–B–C result unchanged — neither the stability sub-stage nor the
latest-version ceiling removes anything, for every `latestVersion` and
`respectLatest`. -/
theorem filterVersions_bypass (env : Env) (config : FilterConfig)
    (fromVersion latestVersion : String) (versions : List Release)
    (hfrom : strTruthy fromVersion = true)
    (hbypass : (optTruthy config.followTag ||
      config.ignoreUnstable == some false) = true) :
    filterVersions env config fromVersion latestVersion versions =
      stagesABC env config fromVersion versions := by
  rw [filterVersions_of_truthy env config fromVersion latestVersion versions hfrom]
  split
  · rename_i e heq
    exact heq.symm
  · rename_i fv3 hABC
    simp [stageD, hbypass, hABC]

/-- Witness for C8 at a concrete input (an unstable candidate above the
latest version survives because `followTag` is set). -/
theorem filterVersions_bypass_witness :
    filterVersions demoEnv cfgFollowTag "1.2.0" "2.0.0"
        [⟨"2.1.0-rc.1", false⟩, ⟨"3.0.0", false⟩] =
      stagesABC demoEnv cfgFollowTag "1.2.0"
        [⟨"2.1.0-rc.1", false⟩, ⟨"3.0.0", false⟩] :=
  filterVersions_bypass demoEnv cfgFollowTag "1.2.0" "2.0.0"
    [⟨"2.1.0-rc.1", false⟩, ⟨"3.0.0", false⟩] (by decide) (by decide)

/-- C9 (amended): for a successful Stage B run, a Stage A survivor is
removed iff `ignoreDeprecated` is `some true`, the first record of the
original sequence whose version equals the reference version exists and is
not deprecated, and the first record of the original sequence whose
version equals the candidate's version is deprecated.  Under unique
version strings these first records are the reference's and the
candidate's own records; with duplicates they need not be (see the
counterexample).  In particular, a deprecated reference record disables
all Stage B removal. -/
theorem stageB_removes_iff (config : FilterConfig) (fromVersion : String)
    (versions filteredVersions out : List Release) (v : Release)
    (hok : stageB config fromVersion versions filteredVersions = .ok out)
    (hv : v ∈ filteredVersions) :
    (v ∉ out ↔
      (config.ignoreDeprecated = some true ∧
        ∃ fromRelease,
          versions.find? (fun release => release.version == fromVersion) =
            some fromRelease ∧
          fromRelease.isDeprecated = false ∧
          ∃ versionRelease,
            versions.find? (fun release => release.version == v.version) =
              some versionRelease ∧
            versionRelease.isDeprecated = true)) := by
  rw [stageB] at hok
  split at hok
  · rename_i fr hf
    by_cases hcond :
        (config.ignoreDeprecated == some true && !fr.isDeprecated) = true
    · rw [if_pos hcond] at hok
      obtain ⟨b, hb, hiff⟩ := filterE_mem hok hv
      cases hfv : versions.find? (fun release => release.version == v.version) with
      | none =>
        rw [hfv] at hb
        have hb2 : (Except.error Err.typeError : Except Err Bool) = .ok b := hb
        cases hb2
      | some vr =>
        rw [hfv] at hb
        have hb2 : (Except.ok (!vr.isDeprecated) : Except Err Bool) = .ok b := hb
        injection hb2 with hb3
        subst hb3
        rw [Bool.and_eq_true] at hcond
        obtain ⟨hid, hfd⟩ := hcond
        constructor
        · intro hnot
          have hdep : (!vr.isDeprecated) = false := by
            cases hdd : (!vr.isDeprecated) with
            | false => rfl
            | true => exact absurd (hiff.mpr hdd) hnot
          exact ⟨by simpa using hid, fr, hf, by simpa using hfd, vr, rfl,
            by simpa using hdep⟩
        · rintro ⟨-, fr2, hf2, -, vr2, hfv2, hdep2⟩
          injection hfv2 with hfv3
          subst hfv3
          intro hmem
          have hver := hiff.mp hmem
          rw [hdep2] at hver
          simp at hver
    · rw [if_neg hcond] at hok
      injection hok with hout
      subst hout
      constructor
      · intro hnot
        exact absurd hv hnot
      · rintro ⟨hid, fr2, hf2, hfd2, -, -, -⟩
        rw [hf] at hf2
        injection hf2 with hf3
        subst hf3
        exact absurd
          (by simp [hid, hfd2] :
            (config.ignoreDeprecated == some true && !fr.isDeprecated) = true)
          hcond
  · rename_i hf
    injection hok with hout
    subst hout
    constructor
    · intro hnot
      exact absurd hv hnot
    · rintro ⟨-, fr2, hf2, -, -, -, -⟩
      rw [hf] at hf2
      cases hf2

/-- Witness for the amended C9 at a concrete input on which Stage B does
remove a deprecated candidate. -/
theorem stageB_removes_iff_witness :
    ((⟨"2.0.0", true⟩ : Release) ∉ ([] : List Release)) ↔
      (cfgDeprecated.ignoreDeprecated = some true ∧
        ∃ fromRelease,
          ([(⟨"1.0.0", false⟩ : Release), ⟨"2.0.0", true⟩] : List Release).find?
              (fun release => release.version == "1.0.0") = some fromRelease ∧
          fromRelease.isDeprecated = false ∧
          ∃ versionRelease,
            ([(⟨"1.0.0", false⟩ : Release), ⟨"2.0.0", true⟩] : List Release).find?
                (fun release =>
                  release.version == (⟨"2.0.0", true⟩ : Release).version) =
              some versionRelease ∧
            versionRelease.isDeprecated = true) :=
  stageB_removes_iff cfgDeprecated "1.0.0"
    [⟨"1.0.0", false⟩, ⟨"2.0.0", true⟩] [⟨"2.0.0", true⟩] [] ⟨"2.0.0", true⟩
    (by decide) (by decide)

/-- Counterexample to C9 as stated: with a duplicated version string, the
candidate record `⟨"2.0.0", true⟩` — whose own record is deprecated, while
`ignoreDeprecated` is on and the reference's record exists and is not
deprecated — is NOT removed, because Stage B's lookup finds the earlier
non-deprecated record with the same version string. -/
theorem stageB_own_record_counterexample :
    filterVersions demoEnv cfgDeprecated "1.0.0" "" counterVersions =
      .ok [⟨"2.0.0", false⟩, ⟨"2.0.0", true⟩] ∧
    cfgDeprecated.ignoreDeprecated = some true ∧
    counterVersions.find? (fun release => release.version == "1.0.0") =
      some ⟨"1.0.0", false⟩ ∧
    (⟨"1.0.0", false⟩ : Release).isDeprecated = false ∧
    (⟨"2.0.0", true⟩ : Release) ∈ counterVersions ∧
    (⟨"2.0.0", true⟩ : Release).isDeprecated = true ∧
    (⟨"2.0.0", true⟩ : Release) ∈
      [(⟨"2.0.0", false⟩ : Release), ⟨"2.0.0", true⟩] := by
  decide

/-- C10: Stage B's per-candidate lookup always succeeds — every Stage A
survivor is an element of the original sequence, so `find?` by its version
string returns a record — and consequently `filterVersions` never fails
with the runtime `typeError` of a property access on an absent lookup
result. -/
theorem stageB_lookup_safe (env : Env) (config : FilterConfig)
    (fromVersion latestVersion : String) (versions : List Release) :
    (∀ v ∈ stageA (env.get config.versioning) fromVersion versions,
      (versions.find? (fun release => release.version == v.version)).isSome =
        true) ∧
    filterVersions env config fromVersion latestVersion versions ≠
      .error Err.typeError := by
  constructor
  · intro v hv
    cases hfind : versions.find? (fun release => release.version == v.version) with
    | none =>
      have := List.find?_eq_none.mp hfind v (mem_stageA.mp hv).1
      simp at this
    | some r => rfl
  · intro hbad
    rw [filterVersions] at hbad
    split at hbad
    · cases hbad
    · split at hbad
      · rename_i e heq
        injection hbad with hbad'
        subst hbad'
        exact stagesABC_no_typeError env config fromVersion versions heq
      · cases hbad

/-- Witness for C10 at a concrete input. -/
theorem stageB_lookup_safe_witness :
    filterVersions demoEnv cfgDeprecated "1.0.0" "2.0.0" counterVersions ≠
      .error Err.typeError :=
  (stageB_lookup_safe demoEnv cfgDeprecated "1.0.0" "2.0.0" counterVersions).2

end LookupFilter
